import Mathlib

/-!
Verification of the `mutable_debug_assertion` lint
(`clippy_lints/src/mutable_debug_assertion.rs`).

The development shallowly embeds the HIR fragment the lint inspects, the
shape-matching function `extract_call`, the `MutArgVisitor` traversal, and
the `check_expr` driver, then proves the specified properties about them.
Spans and HIR ids are abstracted as natural numbers; the host compiler's
adjustment table and `is_direct_expn_of` predicate are parameters.
-/

namespace MutableDebugAssertion

/-- `rustc_hir::Mutability`. -/
inductive Mutability where
  | mut
  | not

/-- `rustc_hir::BorrowKind`. -/
inductive BorrowKind where
  | ref
  | raw

/-- `rustc_hir::UnOp` (the variants relevant to the lint era). -/
inductive UnOp where
  | unNot
  | unNeg
  | unDeref

/-- `rustc_hir::MatchSource` variants (the lint only distinguishes
`AwaitDesugar` from the rest). -/
inductive MatchSource where
  | normal
  | ifLetDesugar
  | whileDesugar
  | forLoopDesugar
  | tryDesugar
  | awaitDesugar

/-- The fragment of `rustc::ty::TyKind` the lint inspects: a type is either a
reference with some mutability or anything else. -/
inductive TyKind where
  | ref (m : Mutability)
  | other

/-- One recorded type adjustment (implicit coercion); the lint only looks at
its `target` type. -/
structure Adjustment where
  target : TyKind

mutual
/-- An HIR expression: a hir id, a span (abstracted as `Nat`), and a kind. -/
inductive Expr where
  | mk (hirId : Nat) (span : Nat) (kind : ExprKind)

/-- The fragment of `rustc_hir::ExprKind` the lint inspects.  `lit` stands
for any leaf expression kind with no sub-expressions. -/
inductive ExprKind where
  | addrOf (bk : BorrowKind) (m : Mutability) (sub : Expr)
  | path
  | matchE (scrut : Expr) (arms : List Expr) (src : MatchSource)
  | block (stmts : List Stmt) (trailing : Option Expr)
  | dropTemps (sub : Expr)
  | unary (op : UnOp) (sub : Expr)
  | tup (elems : List Expr)
  | call (callee : Expr) (args : List Expr)
  | lit

/-- The fragment of `rustc_hir::StmtKind`: `semi` is `StmtKind::Semi`,
`exprStmt` is `StmtKind::Expr`, `localStmt` a `let` with optional
initializer, `other` any statement without sub-expressions. -/
inductive Stmt where
  | semi (e : Expr)
  | exprStmt (e : Expr)
  | localStmt (init : Option Expr)
  | other
end

def Expr.hirId : Expr → Nat
  | .mk i _ _ => i

def Expr.span : Expr → Nat
  | .mk _ s _ => s

def Expr.kind : Expr → ExprKind
  | .mk _ _ k => k

/-- The traversal state of `MutArgVisitor`: the tentatively recorded span and
the `found` flag. -/
structure VState where
  expr_span : Option Nat
  found : Bool

/-- `matches!(a.target.kind, ty::Ref(_, _, Mutability::Mut))`. -/
def isMutRef : TyKind → Bool
  | .ref .mut => true
  | _ => false

/-- The body of
`if let Some(adj) = self.cx.tables.adjustments().get(expr.hir_id) { adj.iter().any(...) }`:
`none` models an absent adjustment entry. -/
def hasMutAdjustment : Option (List Adjustment) → Bool
  | some adjs => adjs.any (fun a => isMutRef a.target)
  | none => false

mutual
/-- `MutArgVisitor::visit_expr`.  `adj` is the host-supplied adjustment
table keyed by hir id. -/
def visit (adj : Nat → Option (List Adjustment)) (st : VState) (e : Expr) : VState :=
  match e with
  | .mk _ _ (.addrOf .ref .mut _) => { st with found := true }
  | .mk hid _ .path =>
      if hasMutAdjustment (adj hid) then { st with found := true }
      else walkKind adj st .path
  | .mk _ _ (.matchE _ _ .awaitDesugar) => st
  | .mk _ sp k =>
      if st.found then st
      else walkKind adj { st with expr_span := some sp } k

/-- `rustc_hir::intravisit::walk_expr`, restricted to the embedded kinds:
visits each child expression in source order through the visitor. -/
def walkKind (adj : Nat → Option (List Adjustment)) (st : VState) (k : ExprKind) : VState :=
  match k with
  | .addrOf _ _ sub => visit adj st sub
  | .path => st
  | .matchE scrut arms _ => visitList adj (visit adj st scrut) arms
  | .block stmts trailing =>
      match trailing with
      | some t => visit adj (visitStmts adj st stmts) t
      | none => visitStmts adj st stmts
  | .dropTemps sub => visit adj st sub
  | .unary _ sub => visit adj st sub
  | .tup elems => visitList adj st elems
  | .call callee args => visitList adj (visit adj st callee) args
  | .lit => st

/-- Visit a list of expressions left to right. -/
def visitList (adj : Nat → Option (List Adjustment)) (st : VState) (es : List Expr) : VState :=
  match es with
  | [] => st
  | e :: rest => visitList adj (visit adj st e) rest

/-- Visit the statements of a block left to right. -/
def visitStmts (adj : Nat → Option (List Adjustment)) (st : VState) (ss : List Stmt) : VState :=
  match ss with
  | [] => st
  | .semi e :: rest => visitStmts adj (visit adj st e) rest
  | .exprStmt e :: rest => visitStmts adj (visit adj st e) rest
  | .localStmt (some e) :: rest => visitStmts adj (visit adj st e) rest
  | .localStmt none :: rest => visitStmts adj st rest
  | .other :: rest => visitStmts adj st rest
end

/-- `MutArgVisitor::new`: fresh traversal state. -/
def initState : VState := { expr_span := none, found := false }

/-- `MutArgVisitor::expr_span`: the recorded span, but only if `found`. -/
def VState.exprSpanResult (st : VState) : Option Nat :=
  if st.found then st.expr_span else none

/-- Run a fresh visitor on one operand expression and read off its result,
as `extract_call` does at each operand. -/
def runVisitor (adj : Nat → Option (List Adjustment)) (e : Expr) : Option Nat :=
  (visit adj initState e).exprSpanResult

/-- The outer `if_chain` of `extract_call`: the node is a block whose
statement list is exactly one `StmtKind::Semi` statement. -/
def blockSemi : Expr → Option Expr
  | .mk _ _ (.block [.semi matchexpr] _) => some matchexpr
  | _ => none

/-- The `debug_assert` arm of `extract_call`: a match whose scrutinee is
`DropTemps` of a logical negation; yields the negated condition. -/
def boolFormCondition : Expr → Option Expr
  | .mk _ _ (.matchE (.mk _ _ (.dropTemps (.mk _ _ (.unary .unNot condition)))) _ _) =>
      some condition
  | _ => none

/-- The `debug_assert_{eq,ne}` arm of `extract_call`: a block whose trailing
expression is a match over a 2-tuple; yields the two tuple elements. -/
def eqFormConditions : Expr → Option (Expr × Expr)
  | .mk _ _ (.block _ (some (.mk _ _ (.matchE (.mk _ _ (.tup [c0, c1])) _ _)))) =>
      some (c0, c1)
  | _ => none

/-- `if let ExprKind::AddrOf(BorrowKind::Ref, _, ref operand) = cond.kind`. -/
def addrOfRefOperand : Expr → Option Expr
  | .mk _ _ (.addrOf .ref _ sub) => some sub
  | _ => none

/-- `extract_call`: recognize either assertion expansion shape and run the
visitor on the extracted operand(s); left operand takes priority for the
equality forms. -/
def extract_call (adj : Nat → Option (List Adjustment)) (e : Expr) : Option Nat :=
  match blockSemi e with
  | none => none
  | some matchexpr =>
    match boolFormCondition matchexpr with
    | some condition => runVisitor adj condition
    | none =>
      match eqFormConditions matchexpr with
      | none => none
      | some (c0, c1) =>
        let leftResult : Option Nat :=
          match addrOfRefOperand c0 with
          | some lhs => runVisitor adj lhs
          | none => none
        match leftResult with
        | some sp => some sp
        | none =>
          match addrOfRefOperand c1 with
          | some rhs => runVisitor adj rhs
          | none => none

/-- `DEBUG_MACRO_NAMES`. -/
def DEBUG_MACRO_NAMES : List String := ["debug_assert", "debug_assert_eq", "debug_assert_ne"]

/-- One emitted lint diagnostic: message and span. -/
structure Finding where
  message : String
  span : Nat

/-- The message passed to `span_lint`. -/
def lintMessage (dmn : String) : String :=
  "do not call a function with mutable arguments inside of `" ++ dmn ++ "!`"

/-- `DebugAssertWithMutCall::check_expr`: for each macro name, if the node's
span is a direct expansion of it and `extract_call` yields a span, emit one
Finding.  `isDirectExpnOf` abstracts `is_direct_expn_of(span, name).is_some()`. -/
def check_expr (isDirectExpnOf : Nat → String → Bool)
    (adj : Nat → Option (List Adjustment)) (e : Expr) : List Finding :=
  DEBUG_MACRO_NAMES.filterMap (fun dmn =>
    if isDirectExpnOf e.span dmn then
      match extract_call adj e with
      | some sp => some ⟨lintMessage dmn, sp⟩
      | none => none
    else none)

/-- Did the node match the boolean-form (`debug_assert`) shape that
`extract_call` recognizes? -/
def isBoolFormShape (e : Expr) : Bool :=
  match blockSemi e with
  | some m => (boolFormCondition m).isSome
  | none => false

/-- Did the node match the equality-form (`debug_assert_{eq,ne}`) shape that
`extract_call` recognizes? -/
def isEqFormShape (e : Expr) : Bool :=
  match blockSemi e with
  | some m => (eqFormConditions m).isSome
  | none => false

/-- The desugared tree shape of a boolean-form assertion whose (negated)
condition is `condition`. -/
def boolAssertExpansion (i0 s0 i1 s1 i2 s2 i3 s3 : Nat) (arms : List Expr)
    (src : MatchSource) (condition : Expr) : Expr :=
  .mk i0 s0 (.block
    [.semi (.mk i1 s1 (.matchE
      (.mk i2 s2 (.dropTemps (.mk i3 s3 (.unary .unNot condition)))) arms src))]
    none)

/-- The desugared tree shape of an equality/inequality-form assertion whose
two tuple positions are `c0` and `c1`. -/
def eqAssertExpansion (i0 s0 i1 s1 i2 s2 i3 s3 : Nat) (innerStmts : List Stmt)
    (arms : List Expr) (src : MatchSource) (c0 c1 : Expr) : Expr :=
  .mk i0 s0 (.block
    [.semi (.mk i1 s1 (.block innerStmts
      (some (.mk i2 s2 (.matchE (.mk i3 s3 (.tup [c0, c1])) arms src)))))]
    none)

mutual
/-- Instrumented twin of `visit`, additionally counting how many times
`visit` is invoked during the traversal. -/
def visitC (adj : Nat → Option (List Adjustment)) (st : VState) (e : Expr) : VState × Nat :=
  match e with
  | .mk _ _ (.addrOf .ref .mut _) => ({ st with found := true }, 1)
  | .mk hid _ .path =>
      if hasMutAdjustment (adj hid) then ({ st with found := true }, 1)
      else ((walkKindC adj st .path).1, (walkKindC adj st .path).2 + 1)
  | .mk _ _ (.matchE _ _ .awaitDesugar) => (st, 1)
  | .mk _ sp k =>
      if st.found then (st, 1)
      else ((walkKindC adj { st with expr_span := some sp } k).1,
            (walkKindC adj { st with expr_span := some sp } k).2 + 1)

/-- Instrumented twin of `walkKind`. -/
def walkKindC (adj : Nat → Option (List Adjustment)) (st : VState) (k : ExprKind) : VState × Nat :=
  match k with
  | .addrOf _ _ sub => visitC adj st sub
  | .path => (st, 0)
  | .matchE scrut arms _ =>
      ((visitListC adj (visitC adj st scrut).1 arms).1,
       (visitC adj st scrut).2 + (visitListC adj (visitC adj st scrut).1 arms).2)
  | .block stmts trailing =>
      match trailing with
      | some t =>
          ((visitC adj (visitStmtsC adj st stmts).1 t).1,
           (visitStmtsC adj st stmts).2 + (visitC adj (visitStmtsC adj st stmts).1 t).2)
      | none => visitStmtsC adj st stmts
  | .dropTemps sub => visitC adj st sub
  | .unary _ sub => visitC adj st sub
  | .tup elems => visitListC adj st elems
  | .call callee args =>
      ((visitListC adj (visitC adj st callee).1 args).1,
       (visitC adj st callee).2 + (visitListC adj (visitC adj st callee).1 args).2)
  | .lit => (st, 0)

/-- Instrumented twin of `visitList`. -/
def visitListC (adj : Nat → Option (List Adjustment)) (st : VState) (es : List Expr) : VState × Nat :=
  match es with
  | [] => (st, 0)
  | e :: rest =>
      ((visitListC adj (visitC adj st e).1 rest).1,
       (visitC adj st e).2 + (visitListC adj (visitC adj st e).1 rest).2)

/-- Instrumented twin of `visitStmts`. -/
def visitStmtsC (adj : Nat → Option (List Adjustment)) (st : VState) (ss : List Stmt) : VState × Nat :=
  match ss with
  | [] => (st, 0)
  | .semi e :: rest =>
      ((visitStmtsC adj (visitC adj st e).1 rest).1,
       (visitC adj st e).2 + (visitStmtsC adj (visitC adj st e).1 rest).2)
  | .exprStmt e :: rest =>
      ((visitStmtsC adj (visitC adj st e).1 rest).1,
       (visitC adj st e).2 + (visitStmtsC adj (visitC adj st e).1 rest).2)
  | .localStmt (some e) :: rest =>
      ((visitStmtsC adj (visitC adj st e).1 rest).1,
       (visitC adj st e).2 + (visitStmtsC adj (visitC adj st e).1 rest).2)
  | .localStmt none :: rest => visitStmtsC adj st rest
  | .other :: rest => visitStmtsC adj st rest
end

mutual
/-- The number of expression nodes in an expression tree. -/
def numNodes : Expr → Nat
  | .mk _ _ k => 1 + kindNodes k

/-- The number of expression nodes reachable from an expression kind's
children. -/
def kindNodes : ExprKind → Nat
  | .addrOf _ _ sub => numNodes sub
  | .path => 0
  | .matchE scrut arms _ => numNodes scrut + listNodes arms
  | .block stmts trailing =>
      match trailing with
      | some t => stmtsNodes stmts + numNodes t
      | none => stmtsNodes stmts
  | .dropTemps sub => numNodes sub
  | .unary _ sub => numNodes sub
  | .tup elems => listNodes elems
  | .call callee args => numNodes callee + listNodes args
  | .lit => 0

/-- Total node count of a list of expressions. -/
def listNodes : List Expr → Nat
  | [] => 0
  | e :: rest => numNodes e + listNodes rest

/-- Total node count of the expressions inside a list of statements. -/
def stmtsNodes : List Stmt → Nat
  | [] => 0
  | .semi e :: rest => numNodes e + stmtsNodes rest
  | .exprStmt e :: rest => numNodes e + stmtsNodes rest
  | .localStmt (some e) :: rest => numNodes e + stmtsNodes rest
  | .localStmt none :: rest => stmtsNodes rest
  | .other :: rest => stmtsNodes rest
end


theorem visitC_correct (adj : Nat → Option (List Adjustment)) (st : VState) (e : Expr) :
    (visitC adj st e).1 = visit adj st e ∧ (visitC adj st e).2 ≤ numNodes e := by
  refine visitC.induct adj
    (fun st e => (visitC adj st e).1 = visit adj st e ∧ (visitC adj st e).2 ≤ numNodes e)
    (fun st k => (walkKindC adj st k).1 = walkKind adj st k ∧ (walkKindC adj st k).2 ≤ kindNodes k)
    (fun st ss => (visitStmtsC adj st ss).1 = visitStmts adj st ss ∧
      (visitStmtsC adj st ss).2 ≤ stmtsNodes ss)
    (fun st es => (visitListC adj st es).1 = visitList adj st es ∧
      (visitListC adj st es).2 ≤ listNodes es)
    ?_ ?_ ?_ ?_ ?_ ?_ ?_ ?_ ?_ ?_ ?_ ?_ ?_ ?_ ?_ ?_ ?_ ?_ ?_ ?_ ?_ ?_ ?_ ?_ st e
  · intro st hid sp sub
    refine ⟨?_, ?_⟩
    · simp [visitC, visit]
    · simp [visitC, numNodes]
  · intro st hid sp h
    refine ⟨?_, ?_⟩
    · simp [visitC, visit, h]
    · simp [visitC, h, numNodes]
  · intro st hid sp h _ih
    refine ⟨?_, ?_⟩
    · simp [visitC, visit, h, walkKindC, walkKind]
    · simp [visitC, h, walkKindC, numNodes, kindNodes]
  · intro st hid sp scrut arms
    refine ⟨?_, ?_⟩
    · simp [visitC, visit]
    · simp [visitC, numNodes]
  · intro st hid sp k h1 h2 h3 hf
    cases k with
    | addrOf bk m sub =>
        cases bk <;> cases m <;>
          first
            | exact absurd rfl (h1 _)
            | · refine ⟨?_, ?_⟩
                · simp [visitC, visit, hf]
                · simp [visitC, hf, numNodes]
                  try omega
    | path => exact absurd rfl h2
    | matchE scrut arms src =>
        cases src <;>
          first
            | exact absurd rfl (h3 _ _)
            | · refine ⟨?_, ?_⟩
                · simp [visitC, visit, hf]
                · simp [visitC, hf, numNodes]
                  try omega
    | block stmts tr =>
        refine ⟨?_, ?_⟩
        · simp [visitC, visit, hf]
        · simp [visitC, hf, numNodes]
          try omega
    | dropTemps sub =>
        refine ⟨?_, ?_⟩
        · simp [visitC, visit, hf]
        · simp [visitC, hf, numNodes]
          try omega
    | unary op sub =>
        refine ⟨?_, ?_⟩
        · simp [visitC, visit, hf]
        · simp [visitC, hf, numNodes]
          try omega
    | tup elems =>
        refine ⟨?_, ?_⟩
        · simp [visitC, visit, hf]
        · simp [visitC, hf, numNodes]
          try omega
    | call callee args =>
        refine ⟨?_, ?_⟩
        · simp [visitC, visit, hf]
        · simp [visitC, hf, numNodes]
          try omega
    | lit =>
        refine ⟨?_, ?_⟩
        · simp [visitC, visit, hf]
        · simp [visitC, hf, numNodes]
          try omega
  · intro st hid sp k h1 h2 h3 hf ih
    obtain ⟨ih1, ih2⟩ := ih
    simp only [hf] at ih1 ih2
    cases k with
    | addrOf bk m sub =>
        cases bk <;> cases m <;>
          first
            | exact absurd rfl (h1 _)
            | · simp [walkKindC, walkKind, kindNodes, hf] at ih1 ih2
                refine ⟨?_, ?_⟩
                · simp [visitC, visit, hf]
                  exact ih1
                · simp [visitC, hf, numNodes, kindNodes, walkKindC]
                  try omega
    | path => exact absurd rfl h2
    | matchE scrut arms src =>
        cases src <;>
          first
            | exact absurd rfl (h3 _ _)
            | · simp [walkKindC, walkKind, kindNodes, hf] at ih1 ih2
                refine ⟨?_, ?_⟩
                · simp [visitC, visit, walkKindC, walkKind, hf]
                  exact ih1
                · simp [visitC, hf, numNodes, kindNodes, walkKindC]
                  try omega
    | block stmts tr =>
        cases tr <;>
          · simp [walkKindC, walkKind, kindNodes, hf] at ih1 ih2
            refine ⟨?_, ?_⟩
            · simp [visitC, visit, walkKindC, walkKind, hf]
              try exact ih1
            · simp [visitC, hf, numNodes, kindNodes, walkKindC]
              try omega
    | dropTemps sub =>
        simp [walkKindC, walkKind, kindNodes, hf] at ih1 ih2
        refine ⟨?_, ?_⟩
        · simp [visitC, visit, walkKindC, walkKind, hf]
          exact ih1
        · simp [visitC, hf, numNodes, kindNodes, walkKindC]
          try omega
    | unary op sub =>
        simp [walkKindC, walkKind, kindNodes, hf] at ih1 ih2
        refine ⟨?_, ?_⟩
        · simp [visitC, visit, walkKindC, walkKind, hf]
          exact ih1
        · simp [visitC, hf, numNodes, kindNodes, walkKindC]
          try omega
    | tup elems =>
        simp [walkKindC, walkKind, kindNodes, hf] at ih1 ih2
        refine ⟨?_, ?_⟩
        · simp [visitC, visit, walkKindC, walkKind, hf]
          try exact ih1
        · simp [visitC, hf, numNodes, kindNodes, walkKindC]
          try omega
    | call callee args =>
        simp [walkKindC, walkKind, kindNodes, hf] at ih1 ih2
        refine ⟨?_, ?_⟩
        · simp [visitC, visit, walkKindC, walkKind, hf]
          try exact ih1
        · simp [visitC, hf, numNodes, kindNodes, walkKindC]
          try omega
    | lit =>
        refine ⟨?_, ?_⟩
        · simp [visitC, visit, walkKindC, walkKind, hf]
        · simp [visitC, hf, numNodes, kindNodes, walkKindC]
  · intro st bk m sub ih
    refine ⟨?_, ?_⟩
    · simp [walkKindC, walkKind, ih.1]
    · simpa [walkKindC, kindNodes] using ih.2
  · intro st
    refine ⟨?_, ?_⟩
    · simp [walkKindC, walkKind]
    · simp [walkKindC, kindNodes]
  · intro st scrut arms src ih1 ih4
    obtain ⟨e1, n1⟩ := ih1
    obtain ⟨e4, n4⟩ := ih4
    refine ⟨?_, ?_⟩
    · rw [e1] at e4
      simp [walkKindC, walkKind, e1, e4]
    · simp [walkKindC, kindNodes]
      omega
  · intro st stmts t ih3 ih1
    obtain ⟨e3, n3⟩ := ih3
    obtain ⟨e1, n1⟩ := ih1
    refine ⟨?_, ?_⟩
    · rw [e3] at e1
      simp [walkKindC, walkKind, e3, e1]
    · simp [walkKindC, kindNodes]
      omega
  · intro st stmts ih3
    refine ⟨?_, ?_⟩
    · simp [walkKindC, walkKind, ih3.1]
    · simpa [walkKindC, kindNodes] using ih3.2
  · intro st sub ih
    refine ⟨?_, ?_⟩
    · simp [walkKindC, walkKind, ih.1]
    · simpa [walkKindC, kindNodes] using ih.2
  · intro st op sub ih
    refine ⟨?_, ?_⟩
    · simp [walkKindC, walkKind, ih.1]
    · simpa [walkKindC, kindNodes] using ih.2
  · intro st elems ih4
    refine ⟨?_, ?_⟩
    · simp [walkKindC, walkKind, ih4.1]
    · simpa [walkKindC, kindNodes] using ih4.2
  · intro st callee args ih1 ih4
    obtain ⟨e1, n1⟩ := ih1
    obtain ⟨e4, n4⟩ := ih4
    refine ⟨?_, ?_⟩
    · rw [e1] at e4
      simp [walkKindC, walkKind, e1, e4]
    · simp [walkKindC, kindNodes]
      omega
  · intro st
    refine ⟨?_, ?_⟩
    · simp [walkKindC, walkKind]
    · simp [walkKindC, kindNodes]
  · intro st
    refine ⟨?_, ?_⟩
    · simp [visitListC, visitList]
    · simp [visitListC, listNodes]
  · intro st e rest ih1 ih4
    obtain ⟨e1, n1⟩ := ih1
    obtain ⟨e4, n4⟩ := ih4
    refine ⟨?_, ?_⟩
    · rw [e1] at e4
      simp [visitListC, visitList, e1, e4]
    · simp [visitListC, listNodes]
      omega
  · intro st
    refine ⟨?_, ?_⟩
    · simp [visitStmtsC, visitStmts]
    · simp [visitStmtsC, stmtsNodes]
  · intro st e rest ih1 ih3
    obtain ⟨e1, n1⟩ := ih1
    obtain ⟨e3, n3⟩ := ih3
    refine ⟨?_, ?_⟩
    · rw [e1] at e3
      simp [visitStmtsC, visitStmts, e1, e3]
    · simp [visitStmtsC, stmtsNodes]
      omega
  · intro st e rest ih1 ih3
    obtain ⟨e1, n1⟩ := ih1
    obtain ⟨e3, n3⟩ := ih3
    refine ⟨?_, ?_⟩
    · rw [e1] at e3
      simp [visitStmtsC, visitStmts, e1, e3]
    · simp [visitStmtsC, stmtsNodes]
      omega
  · intro st e rest ih1 ih3
    obtain ⟨e1, n1⟩ := ih1
    obtain ⟨e3, n3⟩ := ih3
    refine ⟨?_, ?_⟩
    · rw [e1] at e3
      simp [visitStmtsC, visitStmts, e1, e3]
    · simp [visitStmtsC, stmtsNodes]
      omega
  · intro st rest ih3
    refine ⟨?_, ?_⟩
    · simp [visitStmtsC, visitStmts, ih3.1]
    · simpa [visitStmtsC, stmtsNodes] using ih3.2
  · intro st rest ih3
    refine ⟨?_, ?_⟩
    · simp [visitStmtsC, visitStmts, ih3.1]
    · simpa [visitStmtsC, stmtsNodes] using ih3.2


/-- Once the `found` flag is set, `visit_expr` leaves the whole traversal
state untouched on every expression: each arm either returns immediately or
(for a path) performs a child-free walk. -/
theorem visit_found_fixed (adj : Nat → Option (List Adjustment)) (st : VState)
    (h : st.found = true) (e : Expr) : visit adj st e = st := by
  obtain ⟨sp0, f⟩ := st
  simp only at h
  subst h
  cases e with
  | mk hid spn k =>
    cases k with
    | addrOf bk m sub => cases bk <;> cases m <;> simp [visit]
    | path => simp [visit, walkKind]
    | matchE scrut arms src => cases src <;> simp [visit]
    | block stmts tr => simp [visit]
    | dropTemps sub => simp [visit]
    | unary op sub => simp [visit]
    | tup elems => simp [visit]
    | call callee args => simp [visit]
    | lit => simp [visit]

/-- Claim C5: throughout a detector traversal, once the `found` flag is true
the recorded candidate span is never overwritten and no further descent
records a new span: visiting any expression from a found state leaves the
state unchanged, so the span reported is the one recorded before the
conclusive node, never one inside a sub-expression classified as mutable. -/
theorem c5_found_flag_freezes_span (adj : Nat → Option (List Adjustment))
    (st : VState) (e : Expr) (h : st.found = true) :
    (visit adj st e).expr_span = st.expr_span ∧ (visit adj st e).found = true := by
  rw [visit_found_fixed adj st h e]
  exact ⟨rfl, h⟩

/-- Witness for C5 at a concrete found state and expression. -/
theorem c5_witness :
    (visit (fun _ => none) ⟨some 3, true⟩ (.mk 0 1 (.tup [.mk 2 4 .lit]))).expr_span = some 3
    ∧ (visit (fun _ => none) ⟨some 3, true⟩ (.mk 0 1 (.tup [.mk 2 4 .lit]))).found = true :=
  c5_found_flag_freezes_span (fun _ => none) ⟨some 3, true⟩ (.mk 0 1 (.tup [.mk 2 4 .lit])) rfl

/-- Claim C8: the instrumented traversal computes exactly the visitor's
state while invoking `visit` at most once per node of the operand tree, and
the detector's exposed result is `some s` precisely when the flag ended true
with `s` recorded: the traversal terminates with a definite answer on every
finite input. -/
theorem c8_traversal_terminates_bounded (adj : Nat → Option (List Adjustment))
    (st : VState) (e : Expr) :
    (visitC adj st e).1 = visit adj st e
    ∧ (visitC adj st e).2 ≤ numNodes e
    ∧ (∀ s, runVisitor adj e = some s ↔
        (visit adj initState e).found = true ∧ (visit adj initState e).expr_span = some s) := by
  refine ⟨(visitC_correct adj st e).1, (visitC_correct adj st e).2, ?_⟩
  intro s
  unfold runVisitor VState.exprSpanResult
  cases hf : (visit adj initState e).found <;> simp [hf]

/-- Claim C3: a conditional-match node whose source is the await desugaring
is skipped entirely: the visitor neither descends into it nor flags it, and
a boolean-form assertion whose condition is such a node yields zero
findings, whatever the suspension awaits. -/
theorem c3_await_desugar_skipped (adj : Nat → Option (List Adjustment))
    (isD : Nat → String → Bool) (st : VState) (i s : Nat) (scrut : Expr)
    (arms : List Expr) (i0 s0 i1 s1 i2 s2 i3 s3 : Nat) (arms2 : List Expr)
    (src : MatchSource) :
    visit adj st (.mk i s (.matchE scrut arms .awaitDesugar)) = st
    ∧ runVisitor adj (.mk i s (.matchE scrut arms .awaitDesugar)) = none
    ∧ check_expr isD adj (boolAssertExpansion i0 s0 i1 s1 i2 s2 i3 s3 arms2 src
        (.mk i s (.matchE scrut arms .awaitDesugar))) = [] := by
  refine ⟨by simp [visit], ?_, ?_⟩
  · simp [runVisitor, visit, initState, VState.exprSpanResult]
  · simp [check_expr, DEBUG_MACRO_NAMES, extract_call, boolAssertExpansion, blockSemi,
      boolFormCondition, runVisitor, visit, initState, VState.exprSpanResult]

/-- Claim C10: only an explicit borrow of kind `Ref` with mutability `Mut`
is conclusive; a raw mutable borrow (and a shared borrow) is treated as an
ordinary node: its span is tentatively recorded and its child is descended
into, and over a leaf child it never sets the `found` flag. -/
theorem c10_raw_borrow_not_conclusive (adj : Nat → Option (List Adjustment))
    (st : VState) (i s j t : Nat) (sub : Expr) (h : st.found = false) :
    visit adj st (.mk i s (.addrOf .raw .mut sub)) =
      visit adj { st with expr_span := some s } sub
    ∧ visit adj st (.mk i s (.addrOf .ref .not sub)) =
      visit adj { st with expr_span := some s } sub
    ∧ (visit adj st (.mk i s (.addrOf .raw .mut (.mk j t .lit)))).found = false
    ∧ (visit adj st (.mk i s (.addrOf .raw .mut (.mk j t .lit)))).expr_span = some t
    ∧ visit adj st (.mk i s (.addrOf .ref .mut sub)) = { st with found := true } := by
  refine ⟨?_, ?_, ?_, ?_, ?_⟩
  · simp [visit, walkKind, h]
  · simp [visit, walkKind, h]
  · simp [visit, walkKind, h]
  · simp [visit, walkKind, h]
  · simp [visit]

/-- Witness for C10 at a concrete not-found state. -/
theorem c10_witness :
    visit (fun _ => none) initState (.mk 0 5 (.addrOf .raw .mut (.mk 1 6 .lit))) =
      visit (fun _ => none) { initState with expr_span := some 5 } (.mk 1 6 .lit)
    ∧ visit (fun _ => none) initState (.mk 0 5 (.addrOf .ref .not (.mk 1 6 .lit))) =
      visit (fun _ => none) { initState with expr_span := some 5 } (.mk 1 6 .lit)
    ∧ (visit (fun _ => none) initState (.mk 0 5 (.addrOf .raw .mut (.mk 1 6 .lit)))).found = false
    ∧ (visit (fun _ => none) initState (.mk 0 5 (.addrOf .raw .mut (.mk 1 6 .lit)))).expr_span = some 6
    ∧ visit (fun _ => none) initState (.mk 0 5 (.addrOf .ref .mut (.mk 1 6 .lit))) =
      { initState with found := true } :=
  c10_raw_borrow_not_conclusive (fun _ => none) initState 0 5 1 6 (.mk 1 6 .lit) rfl

/-- Claim C9: when the operand handed to the detector is conclusive at its
root — a bare explicit mutable borrow, or a bare path whose recorded
coercion targets a mutable reference — the flag is set but no span was ever
recorded, the detector result is `none`, and the assertion emits no
finding. -/
theorem c9_root_conclusive_yields_nothing (adj : Nat → Option (List Adjustment))
    (isD : Nat → String → Bool) (i s j t : Nat) (sub : Expr)
    (i0 s0 i1 s1 i2 s2 i3 s3 : Nat) (arms : List Expr) (src : MatchSource)
    (hadj : hasMutAdjustment (adj j) = true) :
    (visit adj initState (.mk i s (.addrOf .ref .mut sub))).found = true
    ∧ runVisitor adj (.mk i s (.addrOf .ref .mut sub)) = none
    ∧ check_expr isD adj (boolAssertExpansion i0 s0 i1 s1 i2 s2 i3 s3 arms src
        (.mk i s (.addrOf .ref .mut sub))) = []
    ∧ (visit adj initState (.mk j t .path)).found = true
    ∧ runVisitor adj (.mk j t .path) = none
    ∧ check_expr isD adj (boolAssertExpansion i0 s0 i1 s1 i2 s2 i3 s3 arms src
        (.mk j t .path)) = [] := by
  refine ⟨?_, ?_, ?_, ?_, ?_, ?_⟩
  · simp [visit, initState]
  · simp [runVisitor, visit, initState, VState.exprSpanResult]
  · simp [check_expr, DEBUG_MACRO_NAMES, extract_call, boolAssertExpansion, blockSemi,
      boolFormCondition, runVisitor, visit, initState, VState.exprSpanResult]
  · simp [visit, initState, hadj]
  · simp [runVisitor, visit, initState, VState.exprSpanResult, hadj]
  · simp [check_expr, DEBUG_MACRO_NAMES, extract_call, boolAssertExpansion, blockSemi,
      boolFormCondition, runVisitor, visit, initState, VState.exprSpanResult, hadj]

/-- Witness for C9 with a concrete adjustment table mapping the path's hir
id to a mutable-reference coercion. -/
theorem c9_witness :
    (visit (fun _ => some [⟨.ref .mut⟩]) initState (.mk 0 5 (.addrOf .ref .mut (.mk 1 6 .lit)))).found = true
    ∧ runVisitor (fun _ => some [⟨.ref .mut⟩]) (.mk 0 5 (.addrOf .ref .mut (.mk 1 6 .lit))) = none
    ∧ check_expr (fun _ _ => true) (fun _ => some [⟨.ref .mut⟩])
        (boolAssertExpansion 10 20 11 21 12 22 13 23 [] .normal
          (.mk 0 5 (.addrOf .ref .mut (.mk 1 6 .lit)))) = []
    ∧ (visit (fun _ => some [⟨.ref .mut⟩]) initState (.mk 2 7 .path)).found = true
    ∧ runVisitor (fun _ => some [⟨.ref .mut⟩]) (.mk 2 7 .path) = none
    ∧ check_expr (fun _ _ => true) (fun _ => some [⟨.ref .mut⟩])
        (boolAssertExpansion 10 20 11 21 12 22 13 23 [] .normal (.mk 2 7 .path)) = [] :=
  c9_root_conclusive_yields_nothing (fun _ => some [⟨.ref .mut⟩]) (fun _ _ => true)
    0 5 2 7 (.mk 1 6 .lit) 10 20 11 21 12 22 13 23 [] .normal rfl

/-- Claim C1: for each of the three debug-assertion macro names, an
assertion whose sole operand is a direct call passing an explicit mutable
reference produces exactly one finding, and its span is the call
expression's span (the enclosing non-conclusive node recorded on the way
down), not the mutable borrow's. -/
theorem c1_mut_call_one_finding (isD : Nat → String → Bool)
    (adj : Nat → Option (List Adjustment)) (dmn : String)
    (i0 s0 i1 s1 i2 s2 i3 s3 ic sc if0 sf ia sa : Nat)
    (arms : List Expr) (src : MatchSource) (inner : Expr)
    (hmem : dmn ∈ DEBUG_MACRO_NAMES)
    (hexp : ∀ d, isD s0 d = decide (d = dmn)) :
    check_expr isD adj (boolAssertExpansion i0 s0 i1 s1 i2 s2 i3 s3 arms src
      (.mk ic sc (.call (.mk if0 sf .path) [.mk ia sa (.addrOf .ref .mut inner)]))) =
      [⟨lintMessage dmn, sc⟩] := by
  have hrun : runVisitor adj
      (.mk ic sc (.call (.mk if0 sf .path) [.mk ia sa (.addrOf .ref .mut inner)])) = some sc := by
    by_cases hm : hasMutAdjustment (adj if0) = true <;>
      simp [runVisitor, visit, walkKind, visitList, initState, VState.exprSpanResult, hm]
  have hext : extract_call adj (boolAssertExpansion i0 s0 i1 s1 i2 s2 i3 s3 arms src
      (.mk ic sc (.call (.mk if0 sf .path) [.mk ia sa (.addrOf .ref .mut inner)]))) = some sc := by
    simp [extract_call, boolAssertExpansion, blockSemi, boolFormCondition, hrun]
  have hspan : Expr.span (boolAssertExpansion i0 s0 i1 s1 i2 s2 i3 s3 arms src
      (.mk ic sc (.call (.mk if0 sf .path) [.mk ia sa (.addrOf .ref .mut inner)]))) = s0 := rfl
  simp only [DEBUG_MACRO_NAMES, List.mem_cons, List.not_mem_nil, or_false] at hmem
  rcases hmem with h | h | h <;> subst h <;>
    simp [check_expr, DEBUG_MACRO_NAMES, hspan, hexp, hext]

/-- Witness for C1 with the `debug_assert` name and a concrete call
receiving a mutable borrow. -/
theorem c1_witness :
    check_expr (fun _ d => decide (d = "debug_assert")) (fun _ => none)
      (boolAssertExpansion 8 18 7 17 6 16 5 15 [] .normal
        (.mk 4 14 (.call (.mk 3 13 .path) [.mk 2 12 (.addrOf .ref .mut (.mk 1 11 .lit))]))) =
      [⟨lintMessage "debug_assert", 14⟩] :=
  c1_mut_call_one_finding (fun _ d => decide (d = "debug_assert")) (fun _ => none)
    "debug_assert" 8 18 7 17 6 16 5 15 4 14 3 13 2 12 [] .normal (.mk 1 11 .lit)
    (by simp [DEBUG_MACRO_NAMES]) (fun d => rfl)

/-- Claim C2 as written is false on the code: here is a bare path operand
whose recorded coercion targets a mutable reference; the detector marks it
found, yet the assertion produces zero findings, because no candidate span
was recorded before the conclusive root. -/
theorem c2_counterexample :
    (visit (fun i => if i = 21 then some [⟨.ref .mut⟩] else none) initState
      (.mk 21 31 .path)).found = true
    ∧ check_expr (fun _ d => decide (d = "debug_assert"))
        (fun i => if i = 21 then some [⟨.ref .mut⟩] else none)
        (boolAssertExpansion 28 38 27 37 26 36 25 35 [] .normal (.mk 21 31 .path)) = [] := by
  exact ⟨rfl, rfl⟩

/-- Claim C2 (amended): a path whose recorded coercions include a
mutable-reference target makes the detector set the flag and stop
descending; a finding results when such a path sits below a non-conclusive
node of the operand (e.g. as a call argument, reported at the call's span),
but an operand that is the bare path itself yields no finding. -/
theorem c2_amended_coerced_path (adj : Nat → Option (List Adjustment))
    (isD : Nat → String → Bool) (dmn : String) (i s : Nat) (st : VState)
    (i0 s0 i1 s1 i2 s2 i3 s3 ic sc if0 sf : Nat) (arms : List Expr) (src : MatchSource)
    (hadj : hasMutAdjustment (adj i) = true)
    (hmem : dmn ∈ DEBUG_MACRO_NAMES)
    (hexp : ∀ d, isD s0 d = decide (d = dmn)) :
    visit adj st (.mk i s .path) = { st with found := true }
    ∧ check_expr isD adj (boolAssertExpansion i0 s0 i1 s1 i2 s2 i3 s3 arms src
        (.mk ic sc (.call (.mk if0 sf .path) [.mk i s .path]))) = [⟨lintMessage dmn, sc⟩]
    ∧ runVisitor adj (.mk i s .path) = none := by
  refine ⟨by simp [visit, hadj], ?_, by simp [runVisitor, visit, initState, VState.exprSpanResult, hadj]⟩
  have hrun : runVisitor adj (.mk ic sc (.call (.mk if0 sf .path) [.mk i s .path])) = some sc := by
    by_cases hm : hasMutAdjustment (adj if0) = true <;>
      simp [runVisitor, visit, walkKind, visitList, initState, VState.exprSpanResult, hm, hadj]
  have hext : extract_call adj (boolAssertExpansion i0 s0 i1 s1 i2 s2 i3 s3 arms src
      (.mk ic sc (.call (.mk if0 sf .path) [.mk i s .path]))) = some sc := by
    simp [extract_call, boolAssertExpansion, blockSemi, boolFormCondition, hrun]
  have hspan : Expr.span (boolAssertExpansion i0 s0 i1 s1 i2 s2 i3 s3 arms src
      (.mk ic sc (.call (.mk if0 sf .path) [.mk i s .path]))) = s0 := rfl
  simp only [DEBUG_MACRO_NAMES, List.mem_cons, List.not_mem_nil, or_false] at hmem
  rcases hmem with h | h | h <;> subst h <;>
    simp [check_expr, DEBUG_MACRO_NAMES, hspan, hexp, hext]

/-- Witness for the amended C2 at a concrete adjustment table. -/
theorem c2_amended_witness :
    visit (fun i => if i = 21 then some [⟨.ref .mut⟩] else none) initState (.mk 21 31 .path) =
      { initState with found := true }
    ∧ check_expr (fun _ d => decide (d = "debug_assert"))
        (fun i => if i = 21 then some [⟨.ref .mut⟩] else none)
        (boolAssertExpansion 48 58 47 57 46 56 45 55 [] .normal
          (.mk 41 51 (.call (.mk 42 52 .path) [.mk 21 31 .path]))) =
        [⟨lintMessage "debug_assert", 51⟩]
    ∧ runVisitor (fun i => if i = 21 then some [⟨.ref .mut⟩] else none) (.mk 21 31 .path) = none :=
  c2_amended_coerced_path (fun i => if i = 21 then some [⟨.ref .mut⟩] else none)
    (fun _ d => decide (d = "debug_assert")) "debug_assert" 21 31 initState
    48 58 47 57 46 56 45 55 41 51 42 52 [] .normal rfl
    (by simp [DEBUG_MACRO_NAMES]) (fun d => rfl)

/-- Claim C4: for the equality/inequality form the left operand's detector
result takes priority — a right-operand result is returned only when the
left operand yields no span — and a tuple position that is not an
address-of expression is skipped without failing the whole match. -/
theorem c4_eq_form_left_priority (adj : Nat → Option (List Adjustment))
    (i0 s0 i1 s1 i2 s2 i3 s3 : Nat) (innerStmts : List Stmt)
    (arms : List Expr) (src : MatchSource) (c0 : Expr)
    (la sa ra sra : Nat) (m m' : Mutability) (lhs rhs : Expr) (sl sr : Nat) :
    (runVisitor adj lhs = some sl →
      ∀ c1, extract_call adj (eqAssertExpansion i0 s0 i1 s1 i2 s2 i3 s3 innerStmts arms src
        (.mk la sa (.addrOf .ref m lhs)) c1) = some sl)
    ∧ (runVisitor adj lhs = some sl → runVisitor adj rhs = some sr →
      extract_call adj (eqAssertExpansion i0 s0 i1 s1 i2 s2 i3 s3 innerStmts arms src
        (.mk la sa (.addrOf .ref m lhs)) (.mk ra sra (.addrOf .ref m' rhs))) = some sl)
    ∧ (runVisitor adj lhs = none →
      extract_call adj (eqAssertExpansion i0 s0 i1 s1 i2 s2 i3 s3 innerStmts arms src
        (.mk la sa (.addrOf .ref m lhs)) (.mk ra sra (.addrOf .ref m' rhs))) = runVisitor adj rhs)
    ∧ (addrOfRefOperand c0 = none →
      extract_call adj (eqAssertExpansion i0 s0 i1 s1 i2 s2 i3 s3 innerStmts arms src
        c0 (.mk ra sra (.addrOf .ref m' rhs))) = runVisitor adj rhs) := by
  refine ⟨?_, ?_, ?_, ?_⟩
  · intro hl c1
    simp [extract_call, eqAssertExpansion, blockSemi, boolFormCondition, eqFormConditions,
      addrOfRefOperand, hl]
  · intro hl hr
    simp [extract_call, eqAssertExpansion, blockSemi, boolFormCondition, eqFormConditions,
      addrOfRefOperand, hl]
  · intro hl
    simp [extract_call, eqAssertExpansion, blockSemi, boolFormCondition, eqFormConditions,
      addrOfRefOperand, hl]
  · intro h0
    have ha : addrOfRefOperand (.mk ra sra (.addrOf .ref m' rhs)) = some rhs := rfl
    simp [extract_call, eqAssertExpansion, blockSemi, boolFormCondition, eqFormConditions,
      h0, ha]

/-- Witness for C4: both operands contain a call taking a mutable borrow;
the left operand's span is the one extracted. -/
theorem c4_witness :
    extract_call (fun _ => none)
      (eqAssertExpansion 101 111 102 112 103 113 104 114 [] [] .normal
        (.mk 105 115 (.addrOf .ref .not
          (.mk 4 14 (.call (.mk 3 13 .path) [.mk 2 12 (.addrOf .ref .mut (.mk 1 11 .lit))]))))
        (.mk 106 116 (.addrOf .ref .not
          (.mk 84 94 (.call (.mk 83 93 .path) [.mk 82 92 (.addrOf .ref .mut (.mk 81 91 .lit))]))))) =
      some 14 :=
  (c4_eq_form_left_priority (fun _ => none) 101 111 102 112 103 113 104 114 [] [] .normal
    (.mk 0 0 .lit) 105 115 106 116 .not .not
    (.mk 4 14 (.call (.mk 3 13 .path) [.mk 2 12 (.addrOf .ref .mut (.mk 1 11 .lit))]))
    (.mk 84 94 (.call (.mk 83 93 .path) [.mk 82 92 (.addrOf .ref .mut (.mk 81 91 .lit))]))
    14 94).2.1 rfl rfl

/-- Claim C6: a node that matches neither the boolean-form shape nor the
equality-form shape makes the matcher return `none`, and the driver emits
nothing for it; there is no error outcome. -/
theorem c6_shape_mismatch_silent (adj : Nat → Option (List Adjustment))
    (isD : Nat → String → Bool) (e : Expr)
    (h1 : isBoolFormShape e = false) (h2 : isEqFormShape e = false) :
    extract_call adj e = none ∧ check_expr isD adj e = [] := by
  have hext : extract_call adj e = none := by
    unfold extract_call
    cases hbs : blockSemi e with
    | none => rfl
    | some m =>
      cases hbf : boolFormCondition m with
      | some c =>
        exfalso
        simp [isBoolFormShape, hbs, hbf] at h1
      | none =>
        cases heq : eqFormConditions m with
        | some p =>
          exfalso
          simp [isEqFormShape, hbs, heq] at h2
        | none => simp [hbf, heq]
  refine ⟨hext, ?_⟩
  simp [check_expr, DEBUG_MACRO_NAMES, hext]

/-- Witness for C6 at a leaf node matching neither shape. -/
theorem c6_witness :
    extract_call (fun _ => none) (.mk 0 0 .lit) = none
    ∧ check_expr (fun _ _ => true) (fun _ => none) (.mk 0 0 .lit) = [] :=
  c6_shape_mismatch_silent (fun _ => none) (fun _ _ => true) (.mk 0 0 .lit) rfl rfl

/-- Claim C7: a node whose span is not a direct expansion of any of the
three macro names yields no finding, even if its inner tree shape is
exactly an assertion expansion. -/
theorem c7_non_expansion_ignored (isD : Nat → String → Bool)
    (adj : Nat → Option (List Adjustment)) (e : Expr)
    (h : ∀ d, d ∈ DEBUG_MACRO_NAMES → isD e.span d = false) :
    check_expr isD adj e = [] := by
  have h1 := h "debug_assert" (by simp [DEBUG_MACRO_NAMES])
  have h2 := h "debug_assert_eq" (by simp [DEBUG_MACRO_NAMES])
  have h3 := h "debug_assert_ne" (by simp [DEBUG_MACRO_NAMES])
  simp [check_expr, DEBUG_MACRO_NAMES, h1, h2, h3]

/-- Witness for C7: the node has exactly the boolean-form shape with a
mutable-borrow call inside, but no span is an expansion of any macro name,
so nothing is emitted. -/
theorem c7_witness :
    check_expr (fun _ _ => false) (fun _ => none)
      (boolAssertExpansion 8 18 7 17 6 16 5 15 [] .normal
        (.mk 4 14 (.call (.mk 3 13 .path) [.mk 2 12 (.addrOf .ref .mut (.mk 1 11 .lit))]))) = [] :=
  c7_non_expansion_ignored (fun _ _ => false) (fun _ => none)
    (boolAssertExpansion 8 18 7 17 6 16 5 15 [] .normal
      (.mk 4 14 (.call (.mk 3 13 .path) [.mk 2 12 (.addrOf .ref .mut (.mk 1 11 .lit))])))
    (fun _ _ => rfl)

end MutableDebugAssertion
